import Mathlib

set_option autoImplicit false

namespace MackupSpec

/-! Shallow embedding of src/mackup/application.py (class ApplicationProfile).

Filesystem model: an absolute path is a list of components; a filesystem maps
each path to at most one node.  Nodes are atomic: a directory is a single node
(the engine never inspects directory members), a regular file carries an
abstract content tag, a symbolic link carries its target path, and `other`
stands for a node that exists but is neither file, directory nor symlink
(socket, fifo, ...).  Symlink chains are resolved on whole paths with fuel
bounded by the number of filesystem bindings, which dominates the length of
any acyclic chain; a cycle exhausts the fuel and behaves like a broken link,
matching the ELOOP behaviour of the underlying os.path predicates. -/

abbrev Path := List String

inductive Node where
  | absent
  | file (c : Nat)
  | dir (c : Nat)
  | symlink (t : Path)
  | other
  deriving DecidableEq, Repr

abbrev FS := List (Path × Node)

def FS.get : FS → Path → Node
  | [], _ => .absent
  | (q, n) :: rest, p => if p = q then n else FS.get rest p

def FS.set (fs : FS) (p : Path) (n : Node) : FS := (p, n) :: fs

def resolveFuel (fs : FS) : Nat → Path → Option Path
  | 0, _ => none
  | fuel + 1, p =>
    match FS.get fs p with
    | .absent => none
    | .symlink t => resolveFuel fs fuel t
    | _ => some p

def resolve (fs : FS) (p : Path) : Option Path :=
  resolveFuel fs (fs.length + 1) p

/-- os.path.isfile: follows symlinks, true iff the resolved node is a regular
file. -/
def isfile (fs : FS) (p : Path) : Bool :=
  match resolve fs p with
  | some q =>
    match FS.get fs q with
    | .file _ => true
    | _ => false
  | none => false

/-- os.path.isdir: follows symlinks, true iff the resolved node is a
directory. -/
def isdir (fs : FS) (p : Path) : Bool :=
  match resolve fs p with
  | some q =>
    match FS.get fs q with
    | .dir _ => true
    | _ => false
  | none => false

/-- os.path.islink: true iff the node at the path itself is a symlink (no
resolution of the final component). -/
def islink (fs : FS) (p : Path) : Bool :=
  match FS.get fs p with
  | .symlink _ => true
  | _ => false

/-- os.path.exists: follows symlinks, true iff resolution reaches an existing
node; false on a broken symlink. -/
def pexists (fs : FS) (p : Path) : Bool :=
  (resolve fs p).isSome

inductive MErr where
  | unsupportedFile (p : Path)
  | invalidStrategy (s : String)
  | fileNotFound
  | copyFailed (p : Path)
  | linkDestExists (p : Path)
  deriving DecidableEq, Repr

/-- os.path.samefile: stats both arguments (following symlinks) and compares
identity; raises FileNotFoundError when either side does not resolve. -/
def samefile (fs : FS) (a b : Path) : Except MErr Bool :=
  match resolve fs a, resolve fs b with
  | some qa, some qb => .ok (qa = qb)
  | _, _ => .error .fileNotFound

/-- Modelled from the spec: mackup/utils.py is not under src/.  Spec 4.5:
copy(src, dst) is a recursive copy that must fail loudly rather than partially
succeed; in the atomic-node model it reads the node src resolves to and writes
an independent node of the same content at dst. -/
def Utils.copy (fs : FS) (src dst : Path) : Except MErr FS :=
  match resolve fs src with
  | some q =>
    match FS.get fs q with
    | .file c => .ok (FS.set fs dst (.file c))
    | .dir c => .ok (FS.set fs dst (.dir c))
    | _ => .error (.copyFailed src)
  | none => .error (.copyFailed src)

/-- Modelled from the spec: mackup/utils.py is not under src/.  Spec 4.5:
delete(path) removes the file, directory or the symlink itself, never
following a symlink to its target. -/
def Utils.delete (fs : FS) (p : Path) : FS := FS.set fs p .absent

/-- Modelled from the spec: mackup/utils.py is not under src/.  Spec 4.5:
link(target, linkPath) creates a symbolic link at linkPath pointing to target
and fails if linkPath already exists. -/
def Utils.link (fs : FS) (target linkPath : Path) : Except MErr FS :=
  match FS.get fs linkPath with
  | .absent => .ok (FS.set fs linkPath (.symlink target))
  | _ => .error (.linkDestExists linkPath)

/-- Observable per-file reporting of the three operations, one constructor per
print site of application.py. -/
inductive Event where
  | backingUpVerbose (home mackup : Path)
  | backingUp (name : List String)
  | confirmBackup (ftype : String) (mackup : Path)
  | alreadyBackedUp (home mackup : Path)
  | brokenLinkBackup (home : Path)
  | absentBackup (home : Path)
  | restoringVerbose (home mackup : Path)
  | restoring (name : List String)
  | confirmRestore (ftype : String) (name : List String)
  | alreadyLinked (mackup home : Path)
  | brokenLinkRestore (home : Path)
  | absentRestore (mackup : Path)
  | revertingVerbose (mackup home : Path)
  | reverting (name : List String)
  | absentUninstall (mackup : Path)
  deriving DecidableEq, Repr

/-- Run state: the filesystem, the pending confirmation answers of the user,
and the chronological list of emitted reports/prompts. -/
structure St where
  fs : FS
  answers : List Bool
  events : List Event
  deriving DecidableEq, Repr

def St.emit (st : St) (ev : Event) : St :=
  { st with events := st.events ++ [ev] }

/-- Modelled from the spec: mackup/utils.py is not under src/.  Spec 4.6:
confirm is a synchronous yes/no prompt that defaults to no on end of the
input stream; the answers are threaded as a list consumed front to back. -/
def St.confirm (st : St) : Bool × St :=
  match st.answers with
  | [] => (false, st)
  | a :: rest => (a, { st with answers := rest })

/-- ApplicationProfile constructor data used by the engine. -/
structure Profile where
  dry_run : Bool
  strategy : String
  verbose : Bool

structure Entry where
  src : Path
  dst : Path
  name : List String
  deriving DecidableEq, Repr

/-- The file/folder/link classification used to word the confirmation prompt;
none when the path exists but is none of the three (the ValueError case). -/
def classify (fs : FS) (p : Path) : Option String :=
  if isfile fs p then some "file"
  else if isdir fs p then some "folder"
  else if islink fs p then some "link"
  else none

/-- The backup loop guard, application.py lines 89-93, with the lazy
evaluation order of the Python and/or operators preserved. -/
def condBackup (fs : FS) (home mackup : Path) : Except MErr Bool :=
  if isfile fs home || isdir fs home then
    if islink fs home then
      if isfile fs mackup || isdir fs mackup then
        match samefile fs home mackup with
        | .error e => .error e
        | .ok s => .ok (!s)
      else .ok true
    else .ok true
  else .ok false

/-- ApplicationProfile.backup_file, lines 147-156. -/
def backup_file (pr : Profile) (st : St) (home mackup : Path) : St × Option MErr :=
  if pr.strategy = "link" then
    match Utils.copy st.fs home mackup with
    | .error e => (st, some e)
    | .ok fs1 =>
      let fs2 := Utils.delete fs1 home
      match Utils.link fs2 mackup home with
      | .error e => ({ st with fs := fs2 }, some e)
      | .ok fs3 => ({ st with fs := fs3 }, none)
  else if pr.strategy = "copy" then
    match Utils.copy st.fs home mackup with
    | .error e => (st, some e)
    | .ok fs1 => ({ st with fs := fs1 }, none)
  else (st, some (.invalidStrategy pr.strategy))

/-- One iteration of the ApplicationProfile.backup loop, lines 88-145, on the
entry (home_filepath, mackup_filepath, filename) = (e.src, e.dst, e.name). -/
def backupEntry (pr : Profile) (st : St) (e : Entry) : St × Option MErr :=
  let home := e.src
  let mackup := e.dst
  match condBackup st.fs home mackup with
  | .error err => (st, some err)
  | .ok true =>
    let st := st.emit (if pr.verbose then .backingUpVerbose home mackup else .backingUp e.name)
    if pr.dry_run then (st, none)
    else if pexists st.fs mackup then
      match classify st.fs mackup with
      | none => (st, some (.unsupportedFile mackup))
      | some ftype =>
        let st := st.emit (.confirmBackup ftype mackup)
        let p := st.confirm
        if p.1 then
          let st := { p.2 with fs := Utils.delete p.2.fs mackup }
          backup_file pr st home mackup
        else (p.2, none)
    else backup_file pr st home mackup
  | .ok false =>
    if pr.verbose then
      if pexists st.fs home then (st.emit (.alreadyBackedUp home mackup), none)
      else if islink st.fs home then (st.emit (.brokenLinkBackup home), none)
      else (st.emit (.absentBackup home), none)
    else (st, none)

/-- ApplicationProfile.restore_file, lines 248-254. -/
def restore_file (pr : Profile) (st : St) (mackup home : Path) : St × Option MErr :=
  if pr.strategy = "link" then
    match Utils.link st.fs mackup home with
    | .error e => (st, some e)
    | .ok fs1 => ({ st with fs := fs1 }, none)
  else if pr.strategy = "copy" then
    match Utils.copy st.fs mackup home with
    | .error e => (st, some e)
    | .ok fs1 => ({ st with fs := fs1 }, none)
  else (st, some (.invalidStrategy pr.strategy))

/-- Lines 186-190: islink(home) and exists(mackup) and samefile(mackup, home),
evaluated eagerly before the branch; samefile may raise on a broken home
symlink. -/
def pointing_to_mackup (fs : FS) (mackup home : Path) : Except MErr Bool :=
  if islink fs home then
    if pexists fs mackup then samefile fs mackup home
    else .ok false
  else .ok false

/-- One iteration of the ApplicationProfile.restore loop, lines 180-246, on
the entry (mackup_filepath, home_filepath, filename) = (e.src, e.dst, e.name).
The ValueError at line 218 names the mackup path even though the home path is
being classified; the model keeps that. -/
def restoreEntry (pr : Profile) (canSync : List String → Bool) (st : St) (e : Entry) :
    St × Option MErr :=
  let mackup := e.src
  let home := e.dst
  let fde := isfile st.fs mackup || isdir st.fs mackup
  match pointing_to_mackup st.fs mackup home with
  | .error err => (st, some err)
  | .ok ptm =>
    let supported := canSync e.name
    if fde && !ptm && supported then
      let st := st.emit (if pr.verbose then .restoringVerbose home mackup else .restoring e.name)
      if pr.dry_run then (st, none)
      else if pexists st.fs home then
        match classify st.fs home with
        | none => (st, some (.unsupportedFile mackup))
        | some ftype =>
          let st := st.emit (.confirmRestore ftype e.name)
          let p := st.confirm
          if p.1 then
            let st := { p.2 with fs := Utils.delete p.2.fs home }
            restore_file pr st mackup home
          else (p.2, none)
      else restore_file pr st mackup home
    else if pr.verbose then
      if pexists st.fs home then (st.emit (.alreadyLinked mackup home), none)
      else if islink st.fs home then (st.emit (.brokenLinkRestore home), none)
      else (st.emit (.absentRestore mackup), none)
    else (st, none)

/-- One iteration of the ApplicationProfile.uninstall loop, lines 279-302.
Note that in the source the copy at line 300 sits inside the
os.path.exists(home_filepath) branch: when the home path does not exist,
nothing is copied. -/
def uninstallEntry (pr : Profile) (st : St) (e : Entry) : St × Option MErr :=
  let mackup := e.src
  let home := e.dst
  if isfile st.fs mackup || isdir st.fs mackup then
    if pexists st.fs home then
      let st := st.emit (if pr.verbose then .revertingVerbose mackup home else .reverting e.name)
      if pr.dry_run then (st, none)
      else
        let st2 := { st with fs := Utils.delete st.fs home }
        match Utils.copy st2.fs mackup home with
        | .error err => (st2, some err)
        | .ok fs1 => ({ st2 with fs := fs1 }, none)
    else (st, none)
  else if pr.verbose then (st.emit (.absentUninstall mackup), none)
  else (st, none)

/-- The per-operation loop over the resolved entries; an exception aborts the
remainder of the run, keeping the state reached so far. -/
def runEntries (step : St → Entry → St × Option MErr) : St → List Entry → St × Option MErr
  | st, [] => (st, none)
  | st, e :: rest =>
    match step st e with
    | (st2, none) => runEntries step st2 rest
    | (st2, some err) => (st2, some err)

/-- Lexical normalization of a path, mirroring resolution of dot-dot, dot and
empty components by Path.resolve (symlink resolution inside resolve is not
modelled: resolved absolute paths serve only as filesystem keys here). -/
def normComp (acc : List String) (c : String) : List String :=
  if c = ".." then acc.dropLast
  else if c = "." ∨ c = "" then acc
  else acc ++ [c]

def normalize (p : Path) : Path := p.foldl normComp []

/-- The application dictionary fields used by get_files.  A relative path or
glob pattern is kept as its list of components. -/
structure AppCfg where
  configuration_files : List (List String)
  enable_glob : Bool

/-- ApplicationProfile.get_files, lines 27-60.  globFn stands for the external
Path.glob of the standard library: given the filesystem and a pattern it
returns the matches as paths relative to the source root. -/
def get_files (app : AppCfg) (globFn : FS → List String → List (List String))
    (fs : FS) (source target : Path) : List Entry :=
  if app.enable_glob then
    (app.configuration_files.map fun pat =>
      (globFn fs pat).map fun r =>
        Entry.mk (normalize (source ++ r)) (normalize (target ++ r)) r).flatten
  else
    app.configuration_files.map fun p =>
      Entry.mk (normalize (source ++ p)) (normalize (target ++ p)) p

/-- External collaborators of one run: the tracked application, the glob
expander, the platform-support predicate and the two roots. -/
structure Env where
  app : AppCfg
  globFn : FS → List String → List (List String)
  canSync : List String → Bool
  homeRoot : Path
  mackupRoot : Path

def runBackup (pr : Profile) (env : Env) (st : St) : St × Option MErr :=
  runEntries (backupEntry pr) st
    (get_files env.app env.globFn st.fs env.homeRoot env.mackupRoot)

def runRestore (pr : Profile) (env : Env) (st : St) : St × Option MErr :=
  runEntries (restoreEntry pr env.canSync) st
    (get_files env.app env.globFn st.fs env.mackupRoot env.homeRoot)

def runUninstall (pr : Profile) (env : Env) (st : St) : St × Option MErr :=
  runEntries (uninstallEntry pr) st
    (get_files env.app env.globFn st.fs env.mackupRoot env.homeRoot)

inductive Op where
  | backup
  | restore
  | uninstall
  deriving DecidableEq, Repr

def runOp (pr : Profile) (env : Env) : Op → St → St × Option MErr
  | .backup => runBackup pr env
  | .restore => runRestore pr env
  | .uninstall => runUninstall pr env

def runOps (pr : Profile) (env : Env) : List Op → St → St × Option MErr
  | [], st => (st, none)
  | op :: rest, st =>
    match runOp pr env op st with
    | (st2, none) => runOps pr env rest st2
    | (st2, some err) => (st2, some err)

/-- Relative-name escape check: walking the components left to right, a
dot-dot component at depth zero leaves the root. -/
def escapesFrom : Nat → List String → Bool
  | _, [] => false
  | d, c :: rest =>
    if c = ".." then
      match d with
      | 0 => true
      | d2 + 1 => escapesFrom d2 rest
    else if c = "." ∨ c = "" then escapesFrom d rest
    else escapesFrom (d + 1) rest

def escapes (rel : List String) : Bool := escapesFrom 0 rel

/-- The filesystem produced by the link-strategy backup-file action: mackup
receives a copy of the home content, home is deleted, home becomes a symlink
to mackup. -/
def backedUpFS (fs : FS) (home mackup : Path) (n : Node) : FS :=
  FS.set (FS.set (FS.set fs mackup n) home .absent) home (.symlink mackup)

/-- A tracked file in the pre-backup state of interest: a regular file at home
and nothing yet at the mackup side. -/
def EntryFresh (fs : FS) (e : Entry) : Prop :=
  (∃ c, FS.get fs e.src = .file c) ∧ FS.get fs e.dst = .absent

/-- A tracked file already backed up under the link strategy. -/
def EntryLinked (fs : FS) (e : Entry) : Prop :=
  FS.get fs e.src = .symlink e.dst ∧ ∃ c, FS.get fs e.dst = .file c

/-- Two tracked entries touch disjoint paths. -/
def EntryDisjoint (a b : Entry) : Prop :=
  a.src ≠ b.src ∧ a.src ≠ b.dst ∧ a.dst ≠ b.src ∧ a.dst ≠ b.dst

/-! Basic lemmas about the filesystem model. -/

theorem FS.get_set (fs : FS) (p : Path) (n : Node) (q : Path) :
    FS.get (FS.set fs p n) q = if q = p then n else FS.get fs q := rfl

theorem fs_length_succ_of_get {fs : FS} {p : Path} {n : Node}
    (h : FS.get fs p = n) (hn : n ≠ Node.absent) : ∃ k, fs.length = k + 1 := by
  cases fs with
  | nil => exact absurd h.symm (by simpa [FS.get] using hn)
  | cons hd tl => exact ⟨tl.length, rfl⟩

theorem resolveFuel_absent {fs : FS} {p : Path} (h : FS.get fs p = .absent) :
    ∀ fuel, resolveFuel fs fuel p = none
  | 0 => rfl
  | fuel + 1 => by simp [resolveFuel, h]

theorem resolveFuel_file {fs : FS} {p : Path} {c : Nat} (fuel : Nat)
    (h : FS.get fs p = .file c) : resolveFuel fs (fuel + 1) p = some p := by
  simp [resolveFuel, h]

theorem resolveFuel_dir {fs : FS} {p : Path} {c : Nat} (fuel : Nat)
    (h : FS.get fs p = .dir c) : resolveFuel fs (fuel + 1) p = some p := by
  simp [resolveFuel, h]

theorem resolveFuel_other {fs : FS} {p : Path} (fuel : Nat)
    (h : FS.get fs p = .other) : resolveFuel fs (fuel + 1) p = some p := by
  simp [resolveFuel, h]

theorem resolveFuel_symlink {fs : FS} {p : Path} {t : Path} (fuel : Nat)
    (h : FS.get fs p = .symlink t) :
    resolveFuel fs (fuel + 1) p = resolveFuel fs fuel t := by
  simp [resolveFuel, h]

theorem resolve_file {fs : FS} {p : Path} {c : Nat} (h : FS.get fs p = .file c) :
    resolve fs p = some p :=
  resolveFuel_file fs.length h

theorem resolve_dir {fs : FS} {p : Path} {c : Nat} (h : FS.get fs p = .dir c) :
    resolve fs p = some p :=
  resolveFuel_dir fs.length h

theorem resolve_other {fs : FS} {p : Path} (h : FS.get fs p = .other) :
    resolve fs p = some p :=
  resolveFuel_other fs.length h

theorem resolve_absent {fs : FS} {p : Path} (h : FS.get fs p = .absent) :
    resolve fs p = none :=
  resolveFuel_absent h _

theorem resolve_symlink_file {fs : FS} {home m : Path} {c : Nat}
    (h1 : FS.get fs home = .symlink m) (h2 : FS.get fs m = .file c) :
    resolve fs home = some m := by
  obtain ⟨k, hk⟩ := fs_length_succ_of_get h1 (by simp)
  unfold resolve
  rw [hk, resolveFuel_symlink (k + 1) h1, resolveFuel_file k h2]

theorem resolve_symlink_absent {fs : FS} {home m : Path}
    (h1 : FS.get fs home = .symlink m) (h2 : FS.get fs m = .absent) :
    resolve fs home = none := by
  obtain ⟨k, hk⟩ := fs_length_succ_of_get h1 (by simp)
  unfold resolve
  rw [hk, resolveFuel_symlink (k + 1) h1, resolveFuel_absent h2]

/-! Symbolic execution of one backup iteration in the two states relevant to
idempotence: a fresh regular file with no existing backup, and a file already
backed up under the link strategy. -/

theorem backupEntry_fresh (pr : Profile) (st : St) (e : Entry) (c : Nat)
    (hstrat : pr.strategy = "link") (hdry : pr.dry_run = false)
    (hh : FS.get st.fs e.src = .file c) (hm : FS.get st.fs e.dst = .absent) :
    backupEntry pr st e =
      ({ st with
          fs := backedUpFS st.fs e.src e.dst (.file c),
          events := st.events ++
            [if pr.verbose then .backingUpVerbose e.src e.dst else .backingUp e.name] },
        none) := by
  have hrs : resolve st.fs e.src = some e.src := resolve_file hh
  have hrd : resolve st.fs e.dst = none := resolve_absent hm
  simp [backupEntry, condBackup, isfile, islink, pexists, hrs, hrd, hh, hm, hdry, hstrat,
    backup_file, Utils.copy, Utils.delete, Utils.link, St.emit, backedUpFS, FS.set, FS.get]

theorem backupEntry_linked (pr : Profile) (st : St) (e : Entry) (c : Nat)
    (hh : FS.get st.fs e.src = .symlink e.dst) (hm : FS.get st.fs e.dst = .file c) :
    backupEntry pr st e =
      (if pr.verbose then st.emit (.alreadyBackedUp e.src e.dst) else st, none) := by
  have h1 : resolve st.fs e.src = some e.dst := resolve_symlink_file hh hm
  have h2 : resolve st.fs e.dst = some e.dst := resolve_file hm
  cases hv : pr.verbose <;>
    simp [backupEntry, condBackup, isfile, islink, pexists, samefile, h1, h2, hh, hm, hv]

theorem backedUpFS_get_other {fs : FS} {home mackup q : Path} {n : Node}
    (h1 : q ≠ home) (h2 : q ≠ mackup) :
    FS.get (backedUpFS fs home mackup n) q = FS.get fs q := by
  simp [backedUpFS, FS.set, FS.get, h1, h2]

theorem backedUpFS_get_src {fs : FS} {home mackup : Path} {n : Node} :
    FS.get (backedUpFS fs home mackup n) home = .symlink mackup := by
  simp [backedUpFS, FS.set, FS.get]

theorem backedUpFS_get_dst {fs : FS} {home mackup : Path} {n : Node} (h : mackup ≠ home) :
    FS.get (backedUpFS fs home mackup n) mackup = n := by
  simp [backedUpFS, FS.set, FS.get, h]

theorem EntryFresh.src_ne_dst {fs : FS} {e : Entry} (h : EntryFresh fs e) :
    e.src ≠ e.dst := by
  obtain ⟨⟨c, hf⟩, hm⟩ := h
  intro hEq
  rw [hEq, hm] at hf
  cases hf

theorem runEntries_backup_fresh (v : Bool) (es : List Entry) :
    ∀ st : St, (∀ e2 ∈ es, EntryFresh st.fs e2) → es.Pairwise EntryDisjoint →
    ∃ st1, runEntries (backupEntry ⟨false, "link", v⟩) st es = (st1, none) ∧
      st1.answers = st.answers ∧
      (∀ e2 ∈ es, EntryLinked st1.fs e2) ∧
      (∀ q : Path, (∀ e2 ∈ es, q ≠ e2.src ∧ q ≠ e2.dst) →
        FS.get st1.fs q = FS.get st.fs q) := by
  induction es with
  | nil =>
    intro st _ _
    exact ⟨st, rfl, rfl, by simp, fun q _ => rfl⟩
  | cons e rest ih =>
    intro st hfresh hdisj
    obtain ⟨⟨c, hf⟩, hm⟩ := hfresh e (by simp)
    have hne : e.src ≠ e.dst := EntryFresh.src_ne_dst ⟨⟨c, hf⟩, hm⟩
    obtain ⟨hd, htl⟩ := List.pairwise_cons.mp hdisj
    have hstep := backupEntry_fresh ⟨false, "link", v⟩ st e c rfl rfl hf hm
    have hfresh2 : ∀ e2 ∈ rest,
        EntryFresh (backedUpFS st.fs e.src e.dst (.file c)) e2 := by
      intro e2 he2
      obtain ⟨⟨c2, hf2⟩, hm2⟩ := hfresh e2 (by simp [he2])
      obtain ⟨h1, h2, h3, h4⟩ := hd e2 he2
      refine ⟨⟨c2, ?_⟩, ?_⟩
      · rw [backedUpFS_get_other (Ne.symm h1) (Ne.symm h3)]; exact hf2
      · rw [backedUpFS_get_other (Ne.symm h2) (Ne.symm h4)]; exact hm2
    obtain ⟨st1, hrun, hans, hlink, huntouched⟩ :=
      ih { st with
            fs := backedUpFS st.fs e.src e.dst (.file c),
            events := st.events ++
              [if v then .backingUpVerbose e.src e.dst else .backingUp e.name] }
        hfresh2 htl
    refine ⟨st1, ?_, hans, ?_, ?_⟩
    · simpa [runEntries, hstep] using hrun
    · intro e2 he2
      rcases List.mem_cons.mp he2 with hEq | hmem
      · subst hEq
        have huse : ∀ e3 ∈ rest, e2.src ≠ e3.src ∧ e2.src ≠ e3.dst := by
          intro e3 he3
          obtain ⟨h1, h2, _, _⟩ := hd e3 he3
          exact ⟨h1, h2⟩
        have huse2 : ∀ e3 ∈ rest, e2.dst ≠ e3.src ∧ e2.dst ≠ e3.dst := by
          intro e3 he3
          obtain ⟨_, _, h3, h4⟩ := hd e3 he3
          exact ⟨h3, h4⟩
        constructor
        · rw [huntouched e2.src huse]
          exact backedUpFS_get_src
        · exact ⟨c, by rw [huntouched e2.dst huse2]
                       exact backedUpFS_get_dst (Ne.symm hne)⟩
      · exact hlink e2 hmem
    · intro q hq
      have hq1 := (hq e (by simp)).1
      have hq2 := (hq e (by simp)).2
      rw [huntouched q (fun e3 he3 => hq e3 (by simp [he3]))]
      exact backedUpFS_get_other hq1 hq2

theorem runEntries_backup_linked (v : Bool) (es : List Entry) :
    ∀ st : St, (∀ e2 ∈ es, EntryLinked st.fs e2) →
    runEntries (backupEntry ⟨false, "link", v⟩) st es =
      ({ st with events := st.events ++
          (if v then es.map (fun e2 => Event.alreadyBackedUp e2.src e2.dst) else []) },
        none) := by
  induction es with
  | nil => intro st _; simp [runEntries]
  | cons e rest ih =>
    intro st hlinked
    obtain ⟨hs2, c, hd2⟩ := hlinked e (by simp)
    have hstep := backupEntry_linked ⟨false, "link", v⟩ st e c hs2 hd2
    have hrest : ∀ e2 ∈ rest, EntryLinked st.fs e2 := fun e2 he2 => hlinked e2 (by simp [he2])
    cases v with
    | false =>
      have := ih st hrest
      simp only [runEntries, hstep]
      simpa using this
    | true =>
      have := ih (st.emit (.alreadyBackedUp e.src e.dst)) (by simpa [St.emit] using hrest)
      simp only [runEntries, hstep]
      simpa [St.emit, List.append_assoc] using this

/-- Symbolic execution of one restore iteration on a fresh home: the mackup
file exists, nothing at home, the path is platform-supported; under the link
strategy the result is a symlink at home pointing to mackup. -/
theorem restoreEntry_fresh (pr : Profile) (canSync : List String → Bool) (st : St)
    (e : Entry) (c : Nat)
    (hstrat : pr.strategy = "link") (hdry : pr.dry_run = false)
    (hm : FS.get st.fs e.src = .file c) (hh : FS.get st.fs e.dst = .absent)
    (hcs : canSync e.name = true) :
    restoreEntry pr canSync st e =
      ({ st with
          fs := FS.set st.fs e.dst (.symlink e.src),
          events := st.events ++
            [if pr.verbose then .restoringVerbose e.dst e.src else .restoring e.name] },
        none) := by
  have h1 : resolve st.fs e.src = some e.src := resolve_file hm
  have h2 : resolve st.fs e.dst = none := resolve_absent hh
  simp [restoreEntry, pointing_to_mackup, isfile, islink, pexists, h1, h2, hm, hh, hdry,
    hstrat, hcs, restore_file, Utils.link, St.emit]

/-! Error classification and dry-run lemmas. -/

theorem samefile_error {fs : FS} {a b : Path} {err : MErr}
    (h : samefile fs a b = .error err) : err = .fileNotFound := by
  unfold samefile at h
  split at h
  · cases h
  · cases h
    rfl

theorem condBackup_error {fs : FS} {home mackup : Path} {err : MErr}
    (h : condBackup fs home mackup = .error err) : err = .fileNotFound := by
  unfold condBackup at h
  split at h
  · split at h
    · split at h
      · split at h
        · rename_i heq
          cases h
          exact samefile_error heq
        · cases h
      · cases h
    · cases h
  · cases h

theorem pointing_to_mackup_error {fs : FS} {mackup home : Path} {err : MErr}
    (h : pointing_to_mackup fs mackup home = .error err) : err = .fileNotFound := by
  unfold pointing_to_mackup at h
  split at h
  · split at h
    · exact samefile_error h
    · cases h
  · cases h

theorem backupEntry_dry (pr : Profile) (st : St) (e : Entry) (hdry : pr.dry_run = true) :
    (backupEntry pr st e).1.fs = st.fs ∧ (backupEntry pr st e).1.answers = st.answers ∧
    ((backupEntry pr st e).2 = none ∨ (backupEntry pr st e).2 = some .fileNotFound) := by
  unfold backupEntry
  cases hc : condBackup st.fs e.src e.dst with
  | error err =>
    have herr := condBackup_error hc
    subst herr
    simp [hc]
  | ok b =>
    cases b with
    | true => simp [hc, hdry, St.emit]
    | false =>
      cases hv : pr.verbose <;> cases hex : pexists st.fs e.src <;>
        cases hl : islink st.fs e.src <;> simp [hc, St.emit, hv, hex, hl]

theorem restoreEntry_dry (pr : Profile) (canSync : List String → Bool) (st : St) (e : Entry)
    (hdry : pr.dry_run = true) :
    (restoreEntry pr canSync st e).1.fs = st.fs ∧
    (restoreEntry pr canSync st e).1.answers = st.answers ∧
    ((restoreEntry pr canSync st e).2 = none ∨
      (restoreEntry pr canSync st e).2 = some .fileNotFound) := by
  unfold restoreEntry
  cases hp : pointing_to_mackup st.fs e.src e.dst with
  | error err =>
    have herr := pointing_to_mackup_error hp
    subst herr
    simp [hp]
  | ok b =>
    cases hcond : (isfile st.fs e.src || isdir st.fs e.src) && !b && canSync e.name with
    | true => simp [hp, hcond, hdry, St.emit]
    | false =>
      cases hv : pr.verbose <;> cases hex : pexists st.fs e.dst <;>
        cases hl : islink st.fs e.dst <;> simp [hp, hcond, St.emit, hv, hex, hl]

theorem uninstallEntry_dry (pr : Profile) (st : St) (e : Entry) (hdry : pr.dry_run = true) :
    (uninstallEntry pr st e).1.fs = st.fs ∧
    (uninstallEntry pr st e).1.answers = st.answers ∧
    (uninstallEntry pr st e).2 = none := by
  unfold uninstallEntry
  cases hfde : isfile st.fs e.src || isdir st.fs e.src <;>
    cases hex : pexists st.fs e.dst <;> cases hv : pr.verbose <;>
      simp [hfde, hex, hv, hdry, St.emit]

theorem runEntries_preserve (step : St → Entry → St × Option MErr)
    (hfs : ∀ st e, (step st e).1.fs = st.fs)
    (hans : ∀ st e, (step st e).1.answers = st.answers) :
    ∀ (es : List Entry) (st : St),
      (runEntries step st es).1.fs = st.fs ∧
      (runEntries step st es).1.answers = st.answers := by
  intro es
  induction es with
  | nil => intro st; exact ⟨rfl, rfl⟩
  | cons e rest ih =>
    intro st
    have h1 := hfs st e
    have h2 := hans st e
    unfold runEntries
    cases hs : step st e with
    | mk st2 oerr =>
      rw [hs] at h1 h2
      cases oerr with
      | none =>
        obtain ⟨ih1, ih2⟩ := ih st2
        exact ⟨by rw [ih1]; exact h1, by rw [ih2]; exact h2⟩
      | some err => exact ⟨h1, h2⟩

theorem runEntries_err_class (step : St → Entry → St × Option MErr)
    (h : ∀ st e, (step st e).2 = none ∨ (step st e).2 = some .fileNotFound) :
    ∀ (es : List Entry) (st : St),
      (runEntries step st es).2 = none ∨
      (runEntries step st es).2 = some .fileNotFound := by
  intro es
  induction es with
  | nil => intro st; exact Or.inl rfl
  | cons e rest ih =>
    intro st
    have h1 := h st e
    unfold runEntries
    cases hs : step st e with
    | mk st2 oerr =>
      rw [hs] at h1
      cases oerr with
      | none => exact ih st2
      | some err =>
        rcases h1 with h1 | h1
        · cases h1
        · exact Or.inr h1

theorem runOp_dry_fs (pr : Profile) (env : Env) (op : Op) (st : St)
    (hdry : pr.dry_run = true) :
    (runOp pr env op st).1.fs = st.fs ∧ (runOp pr env op st).1.answers = st.answers := by
  cases op with
  | backup =>
    exact runEntries_preserve (backupEntry pr)
      (fun st2 e2 => (backupEntry_dry pr st2 e2 hdry).1)
      (fun st2 e2 => (backupEntry_dry pr st2 e2 hdry).2.1) _ st
  | restore =>
    exact runEntries_preserve (restoreEntry pr env.canSync)
      (fun st2 e2 => (restoreEntry_dry pr env.canSync st2 e2 hdry).1)
      (fun st2 e2 => (restoreEntry_dry pr env.canSync st2 e2 hdry).2.1) _ st
  | uninstall =>
    exact runEntries_preserve (uninstallEntry pr)
      (fun st2 e2 => (uninstallEntry_dry pr st2 e2 hdry).1)
      (fun st2 e2 => (uninstallEntry_dry pr st2 e2 hdry).2.1) _ st

theorem backupEntry_condFalse (pr : Profile) (st : St) (e : Entry)
    (hc : condBackup st.fs e.src e.dst = .ok false) :
    (backupEntry pr st e).1.fs = st.fs ∧ (backupEntry pr st e).1.answers = st.answers ∧
    (backupEntry pr st e).2 = none := by
  unfold backupEntry
  cases hv : pr.verbose <;> cases hex : pexists st.fs e.src <;>
    cases hl : islink st.fs e.src <;> simp [hc, St.emit, hv, hex, hl]

theorem runEntries_backup_condFalse (pr : Profile) (es : List Entry) :
    ∀ st : St, (∀ e2 ∈ es, condBackup st.fs e2.src e2.dst = .ok false) →
    (runEntries (backupEntry pr) st es).2 = none ∧
    (runEntries (backupEntry pr) st es).1.fs = st.fs := by
  induction es with
  | nil => intro st _; exact ⟨rfl, rfl⟩
  | cons e rest ih =>
    intro st hc
    obtain ⟨h1, _, h3⟩ := backupEntry_condFalse pr st e (hc e (by simp))
    unfold runEntries
    cases hs : backupEntry pr st e with
    | mk st2 oerr =>
      rw [hs] at h1 h3
      simp only at h1 h3
      subst h3
      obtain ⟨ih1, ih2⟩ := ih st2 (by
        intro e2 he2
        rw [h1]
        exact hc e2 (by simp [he2]))
      exact ⟨ih1, by rw [ih2]; exact h1⟩

theorem restoreEntry_noop (pr : Profile) (canSync : List String → Bool) (st : St)
    (e : Entry) (b : Bool)
    (hp : pointing_to_mackup st.fs e.src e.dst = .ok b)
    (hcond : ((isfile st.fs e.src || isdir st.fs e.src) && !b && canSync e.name) = false) :
    (restoreEntry pr canSync st e).1.fs = st.fs ∧
    (restoreEntry pr canSync st e).1.answers = st.answers ∧
    (restoreEntry pr canSync st e).2 = none := by
  unfold restoreEntry
  cases hv : pr.verbose <;> cases hex : pexists st.fs e.dst <;>
    cases hl : islink st.fs e.dst <;> simp [hp, hcond, St.emit, hv, hex, hl]

theorem runEntries_restore_noop (pr : Profile) (canSync : List String → Bool)
    (es : List Entry) :
    ∀ st : St,
    (∀ e2 ∈ es, ∃ b, pointing_to_mackup st.fs e2.src e2.dst = .ok b ∧
      ((isfile st.fs e2.src || isdir st.fs e2.src) && !b && canSync e2.name) = false) →
    (runEntries (restoreEntry pr canSync) st es).2 = none ∧
    (runEntries (restoreEntry pr canSync) st es).1.fs = st.fs := by
  induction es with
  | nil => intro st _; exact ⟨rfl, rfl⟩
  | cons e rest ih =>
    intro st hc
    obtain ⟨b, hp, hcond⟩ := hc e (by simp)
    obtain ⟨h1, _, h3⟩ := restoreEntry_noop pr canSync st e b hp hcond
    unfold runEntries
    cases hs : restoreEntry pr canSync st e with
    | mk st2 oerr =>
      rw [hs] at h1 h3
      simp only at h1 h3
      subst h3
      obtain ⟨ih1, ih2⟩ := ih st2 (by
        intro e2 he2
        rw [h1]
        exact hc e2 (by simp [he2]))
      exact ⟨ih1, by rw [ih2]; exact h1⟩

/-! Claim theorems. -/

/-- Claim C2: dry-run purity.  For every sequence of backup, restore and
uninstall invocations with dry_run enabled and every starting state, the
filesystem after the sequence equals the filesystem before it (and no
confirmation answer is consumed); an abort caused by a read-only check keeps
the state intact as well. -/
theorem claim_C2_dry_run_purity (pr : Profile) (env : Env) (ops : List Op) (st : St)
    (hdry : pr.dry_run = true) :
    (runOps pr env ops st).1.fs = st.fs ∧ (runOps pr env ops st).1.answers = st.answers := by
  induction ops generalizing st with
  | nil => exact ⟨rfl, rfl⟩
  | cons op rest ih =>
    obtain ⟨h1, h2⟩ := runOp_dry_fs pr env op st hdry
    unfold runOps
    cases hs : runOp pr env op st with
    | mk st2 oerr =>
      rw [hs] at h1 h2
      cases oerr with
      | none =>
        obtain ⟨ih1, ih2⟩ := ih st2
        exact ⟨by rw [ih1]; exact h1, by rw [ih2]; exact h2⟩
      | some err => exact ⟨h1, h2⟩

/-- Claim C2 witness: a concrete dry-run sequence of all three operations over
a tracked file leaves the filesystem untouched. -/
theorem claim_C2_witness :
    (Profile.mk true "link" true).dry_run = true ∧
    (runOps (Profile.mk true "link" true)
        (Env.mk (AppCfg.mk [["f"]] false) (fun _ _ => []) (fun _ => true) ["home"] ["mk"])
        [Op.backup, Op.restore, Op.uninstall]
        (St.mk [(["home", "f"], Node.file 4)] [true] [])).1.fs =
      (St.mk [(["home", "f"], Node.file 4)] [true] []).fs :=
  ⟨rfl,
    (claim_C2_dry_run_purity (Profile.mk true "link" true)
      (Env.mk (AppCfg.mk [["f"]] false) (fun _ _ => []) (fun _ => true) ["home"] ["mk"])
      [Op.backup, Op.restore, Op.uninstall]
      (St.mk [(["home", "f"], Node.file 4)] [true] []) rfl).1⟩

/-- Claim C3, amended: idempotence of backup holds for the link strategy, not
for every strategy.  For tracked entries that are regular files at home with no
pre-existing mackup copy and pairwise disjoint paths, the first backup run
mutates each of them and the second run leaves the filesystem and the pending
answers unchanged, reporting (in verbose mode) every tracked file as already
backed up. -/
theorem claim_C3_backup_idempotent_link (v : Bool) (st : St) (es : List Entry)
    (hfresh : ∀ e2 ∈ es, EntryFresh st.fs e2) (hdisj : es.Pairwise EntryDisjoint) :
    ∃ st1, runEntries (backupEntry ⟨false, "link", v⟩) st es = (st1, none) ∧
      runEntries (backupEntry ⟨false, "link", v⟩) st1 es =
        ({ st1 with events := st1.events ++
            (if v then es.map (fun e2 => Event.alreadyBackedUp e2.src e2.dst) else []) },
          none) := by
  obtain ⟨st1, hrun, _, hlink, _⟩ := runEntries_backup_fresh v es st hfresh hdisj
  exact ⟨st1, hrun, runEntries_backup_linked v es st1 hlink⟩

/-- Claim C3 witness: one tracked regular file, link strategy; the second run
changes nothing and reports the file as already backed up. -/
theorem claim_C3_witness :
    (∀ e2 ∈ [Entry.mk ["home", "f"] ["mk", "f"] ["f"]],
      EntryFresh (St.mk [(["home", "f"], Node.file 1)] [] []).fs e2) ∧
    ([Entry.mk ["home", "f"] ["mk", "f"] ["f"]].Pairwise EntryDisjoint) ∧
    (∃ st1, runEntries (backupEntry ⟨false, "link", true⟩)
        (St.mk [(["home", "f"], Node.file 1)] [] [])
        [Entry.mk ["home", "f"] ["mk", "f"] ["f"]] = (st1, none) ∧
      runEntries (backupEntry ⟨false, "link", true⟩) st1
          [Entry.mk ["home", "f"] ["mk", "f"] ["f"]] =
        ({ st1 with events := st1.events ++
            (if true then
              [Entry.mk ["home", "f"] ["mk", "f"] ["f"]].map
                (fun e2 => Event.alreadyBackedUp e2.src e2.dst)
             else []) },
          none)) := by
  have hfresh : ∀ e2 ∈ [Entry.mk ["home", "f"] ["mk", "f"] ["f"]],
      EntryFresh (St.mk [(["home", "f"], Node.file 1)] [] []).fs e2 := by
    intro e2 he2
    rw [List.mem_singleton] at he2
    subst he2
    exact ⟨⟨1, by decide⟩, by decide⟩
  have hdisj : [Entry.mk ["home", "f"] ["mk", "f"] ["f"]].Pairwise EntryDisjoint := by
    simp
  exact ⟨hfresh, hdisj,
    claim_C3_backup_idempotent_link true (St.mk [(["home", "f"], Node.file 1)] [] [])
      [Entry.mk ["home", "f"] ["mk", "f"] ["f"]] hfresh hdisj⟩

/-- Claim C3 counterexample: under the copy strategy (the claim asserts both
strategies) the second backup run does not report the tracked file as already
backed up; it reports Backing up again and raises a confirmation prompt. -/
theorem claim_C3_counterexample :
    runEntries (backupEntry ⟨false, "copy", true⟩)
        (runEntries (backupEntry ⟨false, "copy", true⟩)
          (St.mk [(["h"], Node.file 1)] [] [])
          [Entry.mk ["h"] ["m"] ["f"]]).1
        [Entry.mk ["h"] ["m"] ["f"]] =
      (St.mk [(["m"], Node.file 1), (["h"], Node.file 1)] []
        [Event.backingUpVerbose ["h"] ["m"], Event.backingUpVerbose ["h"] ["m"],
         Event.confirmBackup "file" ["m"]], none) ∧
    ((runEntries (backupEntry ⟨false, "copy", true⟩)
        (runEntries (backupEntry ⟨false, "copy", true⟩)
          (St.mk [(["h"], Node.file 1)] [] [])
          [Entry.mk ["h"] ["m"] ["f"]]).1
        [Entry.mk ["h"] ["m"] ["f"]]).1.events.any
      (fun ev => match ev with | .alreadyBackedUp _ _ => true | _ => false)) = false := by
  constructor
  · decide
  · decide

/-- Claim C10: for every strategy other than link and copy, backup and restore
raise the invalid-strategy error at the first file reaching the strategy
branch of the backup-file/restore-file action, aborting the run (after an
accepted confirmation the preceding delete has already happened); dry-run
invocations and runs in which no file needs a mutating action finish without
this error. -/
theorem claim_C10_invalid_strategy (s : String) (hs1 : s ≠ "link") (hs2 : s ≠ "copy") :
    (∀ (v : Bool) (st : St) (e : Entry) (rest : List Entry),
      condBackup st.fs e.src e.dst = .ok true → pexists st.fs e.dst = false →
      runEntries (backupEntry (Profile.mk false s v)) st (e :: rest) =
        (st.emit (if v then .backingUpVerbose e.src e.dst else .backingUp e.name),
          some (.invalidStrategy s))) ∧
    (∀ (v : Bool) (st : St) (e : Entry) (rest : List Entry) (ft : String)
        (ans2 : List Bool),
      condBackup st.fs e.src e.dst = .ok true → pexists st.fs e.dst = true →
      classify st.fs e.dst = some ft → st.answers = true :: ans2 →
      runEntries (backupEntry (Profile.mk false s v)) st (e :: rest) =
        ({ st with
            fs := Utils.delete st.fs e.dst
            answers := ans2
            events := st.events ++
              [if v then .backingUpVerbose e.src e.dst else .backingUp e.name,
               .confirmBackup ft e.dst] }, some (.invalidStrategy s))) ∧
    (∀ (canSync : List String → Bool) (v : Bool) (st : St) (e : Entry)
        (rest : List Entry),
      pointing_to_mackup st.fs e.src e.dst = .ok false →
      (isfile st.fs e.src || isdir st.fs e.src) = true → canSync e.name = true →
      pexists st.fs e.dst = false →
      runEntries (restoreEntry (Profile.mk false s v) canSync) st (e :: rest) =
        (st.emit (if v then .restoringVerbose e.dst e.src else .restoring e.name),
          some (.invalidStrategy s))) ∧
    (∀ (v : Bool) (env : Env) (st : St) (s2 : String),
      (runBackup (Profile.mk true s v) env st).2 ≠ some (.invalidStrategy s2) ∧
      (runRestore (Profile.mk true s v) env st).2 ≠ some (.invalidStrategy s2)) ∧
    (∀ (v dry : Bool) (st : St) (es : List Entry),
      (∀ e2 ∈ es, condBackup st.fs e2.src e2.dst = .ok false) →
      (runEntries (backupEntry (Profile.mk dry s v)) st es).2 = none) ∧
    (∀ (canSync : List String → Bool) (v dry : Bool) (st : St) (es : List Entry),
      (∀ e2 ∈ es, ∃ b, pointing_to_mackup st.fs e2.src e2.dst = .ok b ∧
        ((isfile st.fs e2.src || isdir st.fs e2.src) && !b && canSync e2.name) = false) →
      (runEntries (restoreEntry (Profile.mk dry s v) canSync) st es).2 = none) := by
  refine ⟨?_, ?_, ?_, ?_, ?_, ?_⟩
  · intro v st e rest hcond hex
    have h1 : backupEntry (Profile.mk false s v) st e =
        (st.emit (if v then .backingUpVerbose e.src e.dst else .backingUp e.name),
          some (.invalidStrategy s)) := by
      simp [backupEntry, hcond, hex, backup_file, hs1, hs2, St.emit]
    simp [runEntries, h1]
  · intro v st e rest ft ans2 hcond hex hcls hans
    have h1 : backupEntry (Profile.mk false s v) st e =
        ({ st with
            fs := Utils.delete st.fs e.dst
            answers := ans2
            events := st.events ++
              [if v then .backingUpVerbose e.src e.dst else .backingUp e.name,
               .confirmBackup ft e.dst] }, some (.invalidStrategy s)) := by
      simp [backupEntry, hcond, hex, hcls, St.confirm, hans, backup_file, hs1, hs2,
        St.emit]
    simp [runEntries, h1]
  · intro canSync v st e rest hptm hfde hcs hex
    have h1 : restoreEntry (Profile.mk false s v) canSync st e =
        (st.emit (if v then .restoringVerbose e.dst e.src else .restoring e.name),
          some (.invalidStrategy s)) := by
      simp [restoreEntry, hptm, hfde, hcs, hex, restore_file, hs1, hs2, St.emit]
    simp [runEntries, h1]
  · intro v env st s2
    constructor
    · have h := runEntries_err_class (backupEntry (Profile.mk true s v))
        (fun st2 e2 => (backupEntry_dry (Profile.mk true s v) st2 e2 rfl).2.2)
        (get_files env.app env.globFn st.fs env.homeRoot env.mackupRoot) st
      rcases h with h | h <;> simp [runBackup, h]
    · have h := runEntries_err_class (restoreEntry (Profile.mk true s v) env.canSync)
        (fun st2 e2 =>
          (restoreEntry_dry (Profile.mk true s v) env.canSync st2 e2 rfl).2.2)
        (get_files env.app env.globFn st.fs env.mackupRoot env.homeRoot) st
      rcases h with h | h <;> simp [runRestore, h]
  · intro v dry st es hc
    exact (runEntries_backup_condFalse (Profile.mk dry s v) es st hc).1
  · intro canSync v dry st es hc
    exact (runEntries_restore_noop (Profile.mk dry s v) canSync es st hc).1

/-- Claim C10 witness: the strategy string move is neither link nor copy; a
backup over one fresh tracked file aborts with the invalid-strategy error at
that file. -/
theorem claim_C10_witness :
    ("move" ≠ "link") ∧ ("move" ≠ "copy") ∧
    runEntries (backupEntry (Profile.mk false "move" false))
        (St.mk [(["h"], Node.file 1)] [] [])
        [Entry.mk ["h"] ["m"] ["f"], Entry.mk ["x"] ["y"] ["g"]] =
      ((St.mk [(["h"], Node.file 1)] [] []).emit (Event.backingUp ["f"]),
        some (.invalidStrategy "move")) := by
  refine ⟨by decide, by decide, ?_⟩
  exact (claim_C10_invalid_strategy "move" (by decide) (by decide)).1 false
    (St.mk [(["h"], Node.file 1)] [] []) (Entry.mk ["h"] ["m"] ["f"])
    [Entry.mk ["x"] ["y"] ["g"]] rfl (by decide)

theorem escapesFrom_no_dotdot (rel : List String) :
    ∀ d : Nat, (∀ comp ∈ rel, comp ≠ "..") → escapesFrom d rel = false := by
  induction rel with
  | nil => intro d _; rfl
  | cons cHead tl ih =>
    intro d hcomp
    have h1 : cHead ≠ ".." := hcomp cHead (by simp)
    unfold escapesFrom
    rw [if_neg h1]
    split
    · exact ih d (fun comp hc => hcomp comp (by simp [hc]))
    · exact ih (d + 1) (fun comp hc => hcomp comp (by simp [hc]))

/-- Claim C1 evaluation: uninstall on an entry whose mackup file exists.  When
the home file also exists, it is deleted with no confirmation prompt (the
answer list is untouched, no prompt event) and the mackup content is copied to
home.  When the home file does not exist, the source (application.py:282-300,
the copy sits inside the exists branch) does nothing at all: no copy is
performed and home stays absent, although both the spec (4.4) and the
docstring of uninstall (lines 262-267) require the copy to happen
unconditionally. -/
theorem claim_C1_uninstall_no_copy_when_home_absent :
    (uninstallEntry (Profile.mk false "link" false)
        (St.mk [(["m"], Node.file 3)] [true] []) (Entry.mk ["m"] ["h"] ["f"]) =
      (St.mk [(["m"], Node.file 3)] [true] [], none)) ∧
    (FS.get (uninstallEntry (Profile.mk false "link" false)
        (St.mk [(["m"], Node.file 3)] [true] []) (Entry.mk ["m"] ["h"] ["f"])).1.fs ["h"] =
      Node.absent) ∧
    (uninstallEntry (Profile.mk false "link" false)
        (St.mk [(["m"], Node.file 3), (["h"], Node.file 9)] [true] [])
        (Entry.mk ["m"] ["h"] ["f"]) =
      (St.mk
        ((["h"], Node.file 3) :: (["h"], Node.absent) ::
          [(["m"], Node.file 3), (["h"], Node.file 9)])
        [true] [Event.reverting ["f"]], none)) := by
  refine ⟨by decide, by decide, by decide⟩

/-- Claim C6: the backup-file action under the link strategy is exactly the
composition copy home to mackup, delete home, symlink home to mackup, in that
order; under the copy strategy it only copies and leaves the home node
untouched.  Nodes away from home and mackup are unaffected. -/
theorem claim_C6_backup_file_strategies (st : St) (home mackup : Path) (c : Nat)
    (d v : Bool)
    (hne : home ≠ mackup)
    (hnode : FS.get st.fs home = .file c ∨ FS.get st.fs home = .dir c) :
    (backup_file (Profile.mk d "link" v) st home mackup =
      ({ st with fs := backedUpFS st.fs home mackup (FS.get st.fs home) }, none) ∧
     FS.get (backedUpFS st.fs home mackup (FS.get st.fs home)) home = .symlink mackup ∧
     FS.get (backedUpFS st.fs home mackup (FS.get st.fs home)) mackup = FS.get st.fs home ∧
     (∀ q, q ≠ home → q ≠ mackup →
       FS.get (backedUpFS st.fs home mackup (FS.get st.fs home)) q = FS.get st.fs q)) ∧
    (backup_file (Profile.mk d "copy" v) st home mackup =
      ({ st with fs := FS.set st.fs mackup (FS.get st.fs home) }, none) ∧
     FS.get (FS.set st.fs mackup (FS.get st.fs home)) home = FS.get st.fs home ∧
     (∀ q, q ≠ mackup → FS.get (FS.set st.fs mackup (FS.get st.fs home)) q
        = FS.get st.fs q)) := by
  have hres : resolve st.fs home = some home := by
    rcases hnode with h | h
    · exact resolve_file h
    · exact resolve_dir h
  have hcopy : Utils.copy st.fs home mackup
      = .ok (FS.set st.fs mackup (FS.get st.fs home)) := by
    rcases hnode with h | h <;> simp [Utils.copy, hres, h]
  refine ⟨⟨?_, backedUpFS_get_src, backedUpFS_get_dst (Ne.symm hne), ?_⟩, ⟨?_, ?_, ?_⟩⟩
  · simp [backup_file, hcopy, Utils.delete, Utils.link, backedUpFS, FS.set, FS.get]
  · intro q hq1 hq2
    exact backedUpFS_get_other hq1 hq2
  · simp [backup_file, hcopy]
  · simp [FS.get_set, hne]
  · intro q hq
    simp [FS.get_set, hq]

/-- Claim C6 witness: concrete file at home, distinct mackup path. -/
theorem claim_C6_witness :
    (["h"] : Path) ≠ ["m"] ∧
    (FS.get (St.mk [(["h"], Node.file 5)] [] []).fs ["h"] = .file 5 ∨
      FS.get (St.mk [(["h"], Node.file 5)] [] []).fs ["h"] = .dir 5) ∧
    backup_file (Profile.mk false "link" false) (St.mk [(["h"], Node.file 5)] [] [])
        ["h"] ["m"] =
      ({ (St.mk [(["h"], Node.file 5)] [] []) with
          fs := backedUpFS (St.mk [(["h"], Node.file 5)] [] []).fs ["h"] ["m"]
            (FS.get (St.mk [(["h"], Node.file 5)] [] []).fs ["h"]) }, none) := by
  refine ⟨by decide, Or.inl (by decide), ?_⟩
  exact (claim_C6_backup_file_strategies (St.mk [(["h"], Node.file 5)] [] [])
    ["h"] ["m"] 5 false false (by decide) (Or.inl (by decide))).1.1

/-- Claim C7: when a path that must be classified for the confirmation prompt
exists but is neither file, directory nor symlink, the classification raises
the unsupported-file error and the whole remaining run is aborted, in backup
(classifying the mackup path) and in restore (classifying the home path, the
error naming the mackup path as in the source). -/
theorem claim_C7_unsupported_node_aborts (pr : Profile) (canSync : List String → Bool)
    (st : St) (e : Entry) (rest : List Entry)
    (hdry : pr.dry_run = false) :
    (condBackup st.fs e.src e.dst = .ok true → pexists st.fs e.dst = true →
      classify st.fs e.dst = none →
      runEntries (backupEntry pr) st (e :: rest) =
        (st.emit (if pr.verbose then .backingUpVerbose e.src e.dst else .backingUp e.name),
          some (.unsupportedFile e.dst))) ∧
    (pointing_to_mackup st.fs e.src e.dst = .ok false →
      (isfile st.fs e.src || isdir st.fs e.src) = true → canSync e.name = true →
      pexists st.fs e.dst = true → classify st.fs e.dst = none →
      runEntries (restoreEntry pr canSync) st (e :: rest) =
        (st.emit (if pr.verbose then .restoringVerbose e.dst e.src else .restoring e.name),
          some (.unsupportedFile e.src))) := by
  constructor
  · intro hcond hex hcls
    have h1 : backupEntry pr st e =
        (st.emit (if pr.verbose then .backingUpVerbose e.src e.dst else .backingUp e.name),
          some (.unsupportedFile e.dst)) := by
      simp [backupEntry, hcond, hdry, hex, hcls, St.emit]
    simp [runEntries, h1]
  · intro hptm hfde hcs hex hcls
    have h1 : restoreEntry pr canSync st e =
        (st.emit (if pr.verbose then .restoringVerbose e.dst e.src else .restoring e.name),
          some (.unsupportedFile e.src)) := by
      simp [restoreEntry, hptm, hfde, hcs, hdry, hex, hcls, St.emit]
    simp [runEntries, h1]

/-- Claim C7 witness: a socket-like node at the mackup path during backup and
at the home path during restore aborts both runs. -/
theorem claim_C7_witness :
    condBackup [(["h"], Node.file 1), (["m"], Node.other)] ["h"] ["m"] = .ok true ∧
    pexists [(["h"], Node.file 1), (["m"], Node.other)] ["m"] = true ∧
    classify [(["h"], Node.file 1), (["m"], Node.other)] ["m"] = none ∧
    runEntries (backupEntry (Profile.mk false "link" false))
        (St.mk [(["h"], Node.file 1), (["m"], Node.other)] [] [])
        [Entry.mk ["h"] ["m"] ["f"], Entry.mk ["x"] ["y"] ["g"]] =
      ((St.mk [(["h"], Node.file 1), (["m"], Node.other)] [] []).emit
        (Event.backingUp ["f"]), some (.unsupportedFile ["m"])) ∧
    runEntries (restoreEntry (Profile.mk false "link" false) (fun _ => true))
        (St.mk [(["m2"], Node.file 1), (["h2"], Node.other)] [] [])
        [Entry.mk ["m2"] ["h2"] ["g"]] =
      ((St.mk [(["m2"], Node.file 1), (["h2"], Node.other)] [] []).emit
        (Event.restoring ["g"]), some (.unsupportedFile ["m2"])) := by
  refine ⟨rfl, by decide, by decide, ?_, ?_⟩
  · have h := (claim_C7_unsupported_node_aborts (Profile.mk false "link" false)
      (fun _ => true) (St.mk [(["h"], Node.file 1), (["m"], Node.other)] [] [])
      (Entry.mk ["h"] ["m"] ["f"]) [Entry.mk ["x"] ["y"] ["g"]] rfl).1
    exact h rfl (by decide) (by decide)
  · have h := (claim_C7_unsupported_node_aborts (Profile.mk false "link" false)
      (fun _ => true) (St.mk [(["m2"], Node.file 1), (["h2"], Node.other)] [] [])
      (Entry.mk ["m2"] ["h2"] ["g"]) [] rfl).2
    exact h rfl (by decide) rfl (by decide) (by decide)

/-- Claim C4: if during backup (not dry-run) the mackup copy already exists
and the user declines the confirmation, the filesystem is left completely
unchanged (in particular neither the home nor the shared copy) and the loop
continues with the next tracked file. -/
theorem claim_C4_decline_short_circuit (pr : Profile) (st : St) (e : Entry)
    (rest : List Entry) (ft : String) (ans2 : List Bool)
    (hdry : pr.dry_run = false)
    (hcond : condBackup st.fs e.src e.dst = .ok true)
    (hex : pexists st.fs e.dst = true)
    (hcls : classify st.fs e.dst = some ft)
    (hans : st.answers = false :: ans2) :
    backupEntry pr st e =
      ({ st with
          answers := ans2
          events := st.events ++
            [if pr.verbose then .backingUpVerbose e.src e.dst else .backingUp e.name,
             .confirmBackup ft e.dst] }, none) ∧
    runEntries (backupEntry pr) st (e :: rest) =
      runEntries (backupEntry pr)
        { st with
          answers := ans2
          events := st.events ++
            [if pr.verbose then .backingUpVerbose e.src e.dst else .backingUp e.name,
             .confirmBackup ft e.dst] } rest := by
  have h1 : backupEntry pr st e =
      ({ st with
          answers := ans2
          events := st.events ++
            [if pr.verbose then .backingUpVerbose e.src e.dst else .backingUp e.name,
             .confirmBackup ft e.dst] }, none) := by
    simp [backupEntry, hcond, hdry, hex, hcls, St.emit, St.confirm, hans]
  exact ⟨h1, by simp [runEntries, h1]⟩

/-- Claim C4 witness: concrete decline over an existing mackup file; the state
keeps its filesystem and the next entry is processed. -/
theorem claim_C4_witness :
    (Profile.mk false "link" false).dry_run = false ∧
    condBackup [(["h"], Node.file 1), (["m"], Node.file 2)] ["h"] ["m"] = .ok true ∧
    pexists [(["h"], Node.file 1), (["m"], Node.file 2)] ["m"] = true ∧
    classify [(["h"], Node.file 1), (["m"], Node.file 2)] ["m"] = some "file" ∧
    backupEntry (Profile.mk false "link" false)
        (St.mk [(["h"], Node.file 1), (["m"], Node.file 2)] [false] [])
        (Entry.mk ["h"] ["m"] ["f"]) =
      ({ (St.mk [(["h"], Node.file 1), (["m"], Node.file 2)] [false] []) with
          answers := ([] : List Bool)
          events := ([] : List Event) ++
            [if (Profile.mk false "link" false).verbose then
               Event.backingUpVerbose ["h"] ["m"]
             else Event.backingUp ["f"],
             Event.confirmBackup "file" ["m"]] }, none) := by
  refine ⟨rfl, rfl, by decide, by decide, ?_⟩
  exact (claim_C4_decline_short_circuit (Profile.mk false "link" false)
    (St.mk [(["h"], Node.file 1), (["m"], Node.file 2)] [false] [])
    (Entry.mk ["h"] ["m"] ["f"]) [] "file" [] rfl rfl (by decide) (by decide) rfl).1

/-- Claim C8 counterexample: for a literal (non-glob) FileSpec the emitted
relativeName is the configured path verbatim; a dot-dot spec escapes its
root. -/
theorem claim_C8_counterexample :
    ((get_files (AppCfg.mk [[".."]] false) (fun _ _ => []) [] ["root"] ["tgt"]).map
      Entry.name) = [[".."]] ∧
    escapes [".."] = true := by
  decide

/-- Claim C8, amended: for glob-enabled profiles the invariant holds whenever
the glob expander returns genuine directory entries (non-empty relative paths
with no dot-dot, dot or empty components); for literal profiles the emitted
relativeName is the FileSpec verbatim, so the invariant holds exactly when
every configured spec is itself non-empty and non-escaping. -/
theorem claim_C8_relative_names (app : AppCfg)
    (globFn : FS → List String → List (List String)) (fs : FS) (source target : Path) :
    (app.enable_glob = true →
      (∀ pat r, r ∈ globFn fs pat → r ≠ [] ∧ ∀ comp ∈ r, comp ≠ "..") →
      ∀ e ∈ get_files app globFn fs source target,
        e.name ≠ [] ∧ escapes e.name = false) ∧
    (app.enable_glob = false →
      (∀ p ∈ app.configuration_files, p ≠ [] ∧ escapes p = false) →
      ∀ e ∈ get_files app globFn fs source target,
        e.name ≠ [] ∧ escapes e.name = false) := by
  constructor
  · intro hglob hcanon e he
    rw [get_files, if_pos hglob] at he
    rw [List.mem_flatten] at he
    obtain ⟨l, hl, hel⟩ := he
    rw [List.mem_map] at hl
    obtain ⟨pat, hpat, rfl⟩ := hl
    rw [List.mem_map] at hel
    obtain ⟨r, hr, rfl⟩ := hel
    obtain ⟨h1, h2⟩ := hcanon pat r hr
    exact ⟨h1, escapesFrom_no_dotdot r 0 h2⟩
  · intro hglob hspec e he
    rw [get_files, if_neg (by simp [hglob])] at he
    rw [List.mem_map] at he
    obtain ⟨p, hp, rfl⟩ := he
    exact hspec p hp

/-- Claim C8 witness: a glob profile over canonical matches satisfies the
invariant (instantiated at the first emitted entry). -/
theorem claim_C8_witness :
    ((AppCfg.mk [["*"]] true).enable_glob = true) ∧
    (∀ e ∈ get_files (AppCfg.mk [["*"]] true)
        (fun _ _ => [["a"], ["b", "c"]]) [] ["root"] ["tgt"],
      e.name ≠ [] ∧ escapes e.name = false) := by
  refine ⟨rfl, ?_⟩
  refine (claim_C8_relative_names (AppCfg.mk [["*"]] true)
    (fun _ _ => [["a"], ["b", "c"]]) [] ["root"] ["tgt"]).1 rfl ?_
  intro pat r hr
  simp only [List.mem_cons, List.not_mem_nil, or_false] at hr
  rcases hr with rfl | rfl
  · exact ⟨by decide, by decide⟩
  · exact ⟨by decide, by decide⟩

/-- Claim C5 counterexample: mackup exists, the path is supported and the home
path holds a symlink pointing somewhere other than the mackup file — but a
broken one.  Instead of requesting confirmation, restore aborts with the
FileNotFoundError raised by the eager os.path.samefile call
(application.py:186-190): no prompt event is emitted, no answer is consumed. -/
theorem claim_C5_counterexample :
    restoreEntry (Profile.mk false "link" false) (fun _ => true)
        (St.mk [(["m"], Node.file 1), (["h"], Node.symlink ["x"])] [true] [])
        (Entry.mk ["m"] ["h"] ["f"]) =
      (St.mk [(["m"], Node.file 1), (["h"], Node.symlink ["x"])] [true] [],
        some .fileNotFound) := by
  decide

/-- Claim C5, amended: during restore with the mackup file existing and the
path platform-supported, when the home path resolves to an existing node and
is not already pointing at mackup, a confirmation is requested before any
mutation (decline skips the file with the filesystem unchanged, accept deletes
home and performs the restore-file action); when the home path does not exist
the restore-file action runs directly without confirmation; but when the home
path is a broken symlink (so the eager samefile classification fails) the run
aborts with an error before any prompt or mutation. -/
theorem claim_C5_restore_confirmation (pr : Profile) (canSync : List String → Bool)
    (st : St) (e : Entry)
    (hdry : pr.dry_run = false)
    (hm : (isfile st.fs e.src || isdir st.fs e.src) = true)
    (hcs : canSync e.name = true) :
    (∀ ft b ans2, pointing_to_mackup st.fs e.src e.dst = .ok false →
      pexists st.fs e.dst = true → classify st.fs e.dst = some ft →
      st.answers = b :: ans2 →
      restoreEntry pr canSync st e =
        (if b then
          restore_file pr
            { st with
                fs := Utils.delete st.fs e.dst
                answers := ans2
                events := st.events ++
                  [if pr.verbose then .restoringVerbose e.dst e.src else .restoring e.name,
                   .confirmRestore ft e.name] }
            e.src e.dst
         else
          ({ st with
              answers := ans2
              events := st.events ++
                [if pr.verbose then .restoringVerbose e.dst e.src else .restoring e.name,
                 .confirmRestore ft e.name] }, none))) ∧
    (pointing_to_mackup st.fs e.src e.dst = .ok false →
      pexists st.fs e.dst = false →
      restoreEntry pr canSync st e =
        restore_file pr
          (st.emit (if pr.verbose then .restoringVerbose e.dst e.src else .restoring e.name))
          e.src e.dst) ∧
    (∀ err, pointing_to_mackup st.fs e.src e.dst = .error err →
      restoreEntry pr canSync st e = (st, some err)) := by
  refine ⟨?_, ?_, ?_⟩
  · intro ft b ans2 hptm hex hcls hans
    cases b <;>
      simp [restoreEntry, hptm, hm, hcs, hdry, hex, hcls, St.emit, St.confirm, hans]
  · intro hptm hex
    simp [restoreEntry, hptm, hm, hcs, hdry, hex, St.emit]
  · intro err hptm
    simp [restoreEntry, hptm]

/-- Claim C5 witness: an ordinary file at home triggers the prompt; declining
leaves the filesystem untouched. -/
theorem claim_C5_witness :
    (Profile.mk false "link" false).dry_run = false ∧
    (isfile [(["m"], Node.file 1), (["h"], Node.file 9)] ["m"] ||
      isdir [(["m"], Node.file 1), (["h"], Node.file 9)] ["m"]) = true ∧
    ((fun _ : List String => true) ["f"]) = true ∧
    restoreEntry (Profile.mk false "link" false) (fun _ => true)
        (St.mk [(["m"], Node.file 1), (["h"], Node.file 9)] [false] [])
        (Entry.mk ["m"] ["h"] ["f"]) =
      (if false then
        restore_file (Profile.mk false "link" false)
          { (St.mk [(["m"], Node.file 1), (["h"], Node.file 9)] [false] []) with
              fs := Utils.delete
                (St.mk [(["m"], Node.file 1), (["h"], Node.file 9)] [false] []).fs ["h"]
              answers := ([] : List Bool)
              events := ([] : List Event) ++
                [if (Profile.mk false "link" false).verbose then
                   Event.restoringVerbose ["h"] ["m"]
                 else Event.restoring ["f"],
                 Event.confirmRestore "file" ["f"]] }
          ["m"] ["h"]
       else
        ({ (St.mk [(["m"], Node.file 1), (["h"], Node.file 9)] [false] []) with
            answers := ([] : List Bool)
            events := ([] : List Event) ++
              [if (Profile.mk false "link" false).verbose then
                 Event.restoringVerbose ["h"] ["m"]
               else Event.restoring ["f"],
               Event.confirmRestore "file" ["f"]] }, none)) := by
  refine ⟨rfl, by decide, rfl, ?_⟩
  exact (claim_C5_restore_confirmation (Profile.mk false "link" false) (fun _ => true)
    (St.mk [(["m"], Node.file 1), (["h"], Node.file 9)] [false] [])
    (Entry.mk ["m"] ["h"] ["f"]) rfl (by decide) rfl).1
    "file" false [] rfl (by decide) (by decide) rfl

/-- Claim C9: for a file present at home with no shared-folder copy and
strategy link, backup followed by restore on a fresh home (the tracked file
removed) succeeds and reproduces a symlink at home resolving to the same
shared-folder file that the post-backup home symlink resolved to. -/
theorem claim_C9_backup_restore_inverse (v : Bool) (st : St) (home mackup : Path)
    (name : List String) (c : Nat) (canSync : List String → Bool)
    (hh : FS.get st.fs home = .file c) (hm : FS.get st.fs mackup = .absent)
    (hcs : canSync name = true) :
    (runEntries (backupEntry ⟨false, "link", v⟩) st [⟨home, mackup, name⟩]).2 = none ∧
    ((runEntries (restoreEntry ⟨false, "link", v⟩ canSync)
        { (runEntries (backupEntry ⟨false, "link", v⟩) st [⟨home, mackup, name⟩]).1 with
            fs := FS.set
              (runEntries (backupEntry ⟨false, "link", v⟩) st [⟨home, mackup, name⟩]).1.fs
              home .absent }
        [⟨mackup, home, name⟩]).2 = none) ∧
    islink (runEntries (restoreEntry ⟨false, "link", v⟩ canSync)
        { (runEntries (backupEntry ⟨false, "link", v⟩) st [⟨home, mackup, name⟩]).1 with
            fs := FS.set
              (runEntries (backupEntry ⟨false, "link", v⟩) st [⟨home, mackup, name⟩]).1.fs
              home .absent }
        [⟨mackup, home, name⟩]).1.fs home = true ∧
    resolve (runEntries (restoreEntry ⟨false, "link", v⟩ canSync)
        { (runEntries (backupEntry ⟨false, "link", v⟩) st [⟨home, mackup, name⟩]).1 with
            fs := FS.set
              (runEntries (backupEntry ⟨false, "link", v⟩) st [⟨home, mackup, name⟩]).1.fs
              home .absent }
        [⟨mackup, home, name⟩]).1.fs home = some mackup ∧
    resolve (runEntries (backupEntry ⟨false, "link", v⟩) st [⟨home, mackup, name⟩]).1.fs
      home = some mackup := by
  have hne : home ≠ mackup := by
    intro hEq
    rw [hEq, hm] at hh
    cases hh
  have hstep := backupEntry_fresh ⟨false, "link", v⟩ st ⟨home, mackup, name⟩ c rfl rfl hh hm
  have hs1src : FS.get (backedUpFS st.fs home mackup (.file c)) home = .symlink mackup :=
    backedUpFS_get_src
  have hs1dst : FS.get (backedUpFS st.fs home mackup (.file c)) mackup = .file c :=
    backedUpFS_get_dst (Ne.symm hne)
  have hres1 : resolve (backedUpFS st.fs home mackup (.file c)) home = some mackup :=
    resolve_symlink_file hs1src hs1dst
  have h2m : FS.get (FS.set (backedUpFS st.fs home mackup (.file c)) home .absent) mackup
      = .file c := by
    rw [FS.get_set, if_neg (Ne.symm hne)]
    exact hs1dst
  have h2h : FS.get (FS.set (backedUpFS st.fs home mackup (.file c)) home .absent) home
      = .absent := by
    rw [FS.get_set, if_pos rfl]
  simp only [runEntries, hstep]
  have hstep2 := restoreEntry_fresh ⟨false, "link", v⟩ canSync
    { st with
        fs := FS.set (backedUpFS st.fs home mackup (.file c)) home .absent,
        events := st.events ++
          [if v then .backingUpVerbose home mackup else .backingUp name] }
    ⟨mackup, home, name⟩ c rfl rfl h2m h2h hcs
  simp only at hstep2
  simp only [runEntries, hstep2]
  have h3h : FS.get
      (FS.set (FS.set (backedUpFS st.fs home mackup (.file c)) home .absent) home
        (.symlink mackup)) home = .symlink mackup := by
    rw [FS.get_set, if_pos rfl]
  have h3m : FS.get
      (FS.set (FS.set (backedUpFS st.fs home mackup (.file c)) home .absent) home
        (.symlink mackup)) mackup = .file c := by
    rw [FS.get_set, if_neg (Ne.symm hne)]
    exact h2m
  refine ⟨trivial, trivial, ?_, ?_, hres1⟩
  · simp [islink, h3h]
  · exact resolve_symlink_file h3h h3m

/-- Claim C9 witness: a concrete file at home, backup then restore on a fresh
home yields a symlink resolving to the shared-folder file. -/
theorem claim_C9_witness :
    FS.get (St.mk [(["h"], Node.file 7)] [] []).fs ["h"] = .file 7 ∧
    FS.get (St.mk [(["h"], Node.file 7)] [] []).fs ["m"] = .absent ∧
    ((fun _ : List String => true) ["f"] = true) ∧
    resolve (runEntries (restoreEntry ⟨false, "link", false⟩ (fun _ => true))
        { (runEntries (backupEntry ⟨false, "link", false⟩)
            (St.mk [(["h"], Node.file 7)] [] []) [⟨["h"], ["m"], ["f"]⟩]).1 with
            fs := FS.set
              (runEntries (backupEntry ⟨false, "link", false⟩)
                (St.mk [(["h"], Node.file 7)] [] []) [⟨["h"], ["m"], ["f"]⟩]).1.fs
              ["h"] .absent }
        [⟨["m"], ["h"], ["f"]⟩]).1.fs ["h"] = some ["m"] := by
  refine ⟨by decide, by decide, rfl, ?_⟩
  exact (claim_C9_backup_restore_inverse false (St.mk [(["h"], Node.file 7)] [] [])
    ["h"] ["m"] ["f"] 7 (fun _ => true) (by decide) (by decide) rfl).2.2.2.1

end MackupSpec
